import Mathlib

/-!
Verification of the BFAST container format encode/decode engine.

Shallow embedding of `src/include/bfast.h` (and its near-duplicate
`src/sandbox/bfast.h`): the BFAST binary container packs an ordered
collection of named byte buffers into a single byte stream with 64-byte
alignment, and unpacks such a stream back into buffers.

Modelling conventions:
* bytes are `Nat` values (each < 256 in any stream the code builds); a byte
  stream is a `List Nat`;
* C++ `size_t` / `uint64_t` arithmetic is modelled on `Nat` (no overflow
  occurs at the sizes involved); where the 32-bit width of a C++ `int`
  literal matters (the `SWAPPED_MAGIC` initializer) the truncation
  `% 2 ^ 32` is written explicitly;
* writing through an output iterator into the `vector<byte>` allocated by
  `pack` is modelled by `writeBytes`, which overwrites bytes in place and
  drops writes that fall outside the allocation (in C++ such writes are
  out-of-bounds, undefined behaviour; they cannot change the contents of
  the returned vector);
* taking the address `&data[i]` in `unpack` is modelled by recording the
  index `i`; `throw runtime_error(...)` is modelled by `Except.error` with
  an error-kind tag per throw site.
-/

set_option maxRecDepth 20000

namespace Bfast

/-- Constant `const ulong MAGIC = 0xBFA5;` (`src/include/bfast.h:25`). -/
def MAGIC : Nat := 0xBFA5

/-- Constant `const ulong SWAPPED_MAGIC = 0xA5BF << 48;` (`src/include/bfast.h:26`).
The literal `0xA5BF` has type `int` (32 bits), so the shift by 48 is a
32-bit shift: under the twos-complement truncation that compilers apply
when constant-folding it (the expression is undefined behaviour in ISO
C++), the value is `(0xA5BF * 2 ^ 48) % 2 ^ 32 = 0`, not the 64-bit value
`0xA5BF000000000000`. -/
def SWAPPED_MAGIC : Nat := (0xA5BF * 2 ^ 48) % 2 ^ 32

/-- Constant `static const int header_size = 32;` -/
def header_size : Nat := 32

/-- Constant `static const int array_offset_size = 16;` -/
def array_offset_size : Nat := 16

/-- Constant `static const int array_offsets_start = 64;` -/
def array_offsets_start : Nat := 64

/-- Constant `static const int alignment = 64;` -/
def alignment : Nat := 64

/-- Function `static bool is_aligned(size_t n)`: whether `n % alignment == 0`. -/
def is_aligned (n : Nat) : Bool := n % alignment == 0

/-- Function `static size_t aligned_value(size_t n)`: `n` if aligned, else
`n + alignment - (n % alignment)`. -/
def aligned_value (n : Nat) : Nat :=
  if is_aligned n then n else n + alignment - n % alignment

/-- Struct `ArrayOffset`: the fields `ulong _begin; ulong _end;`. -/
structure ArrayOffset where
  _begin : Nat
  _end : Nat
deriving DecidableEq, Repr

/-- Struct `Header`: the fields `ulong magic; ulong data_start; ulong data_end; ulong num_arrays;`. -/
structure Header where
  magic : Nat
  data_start : Nat
  data_end : Nat
  num_arrays : Nat
deriving DecidableEq, Repr

/-- The error kinds of the engine, one per `throw` site of the source
(`invalidMagic`, `inconsistentBounds` in `BfastRawData::unpack`) plus the
name-table mismatch of the name decoding in spec section 4.4. -/
inductive BfastError where
  | invalidMagic
  | inconsistentBounds
  | nameTableMismatch
deriving DecidableEq, Repr

instance {ε α : Type} [DecidableEq ε] [DecidableEq α] : DecidableEq (Except ε α) :=
  fun a b =>
    match a, b with
    | .ok x, .ok y =>
        if h : x = y then isTrue (by rw [h]) else isFalse (by intro hh; cases hh; exact h rfl)
    | .error e, .error f =>
        if h : e = f then isTrue (by rw [h]) else isFalse (by intro hh; cases hh; exact h rfl)
    | .ok _, .error _ => isFalse (by intro hh; cases hh)
    | .error _, .ok _ => isFalse (by intro hh; cases hh)

namespace BfastRawData

/-- Method `BfastRawData::compute_data_start` (`src/include/bfast.h:143-150`),
parametrised by `ranges.size()`: `aligned_value(aligned_value(header_size)
+ array_offset_size * count)`. -/
def compute_data_start (count : Nat) : Nat :=
  aligned_value (aligned_value header_size + array_offset_size * count)

/-- The loop body of `BfastRawData::compute_offsets` (`src/include/bfast.h:129-140`):
for each range emit `{n, n + size}` then advance `n` to `aligned_value(n + size)`. -/
def offsetsLoop : Nat → List (List Nat) → List ArrayOffset
  | _, [] => []
  | n, r :: rs => ⟨n, n + r.length⟩ :: offsetsLoop (aligned_value (n + r.length)) rs

/-- Method `BfastRawData::compute_offsets`: starts the cursor at
`compute_data_start()` and runs the loop over `ranges`. -/
def compute_offsets (ranges : List (List Nat)) : List ArrayOffset :=
  offsetsLoop (compute_data_start ranges.length) ranges

/-- Method `BfastRawData::compute_needed_size` (`src/include/bfast.h:153-158`):
`compute_data_start()` when there are no offsets, else `tmp.back()._end`. -/
def compute_needed_size (ranges : List (List Nat)) : Nat :=
  match (compute_offsets ranges).getLast? with
  | none => compute_data_start ranges.length
  | some o => o._end

end BfastRawData

/-- Little-endian serialization of one 64-bit field, as `memcpy` of a
`ulong` produces on the little-endian targets the format is written for. -/
def u64le (x : Nat) : List Nat :=
  (List.range 8).map fun i => x / 256 ^ i % 256

/-- The 32 bytes `copy_to(h, out, current)` emits for a `Header`: the four
64-bit fields in declaration order. -/
def headerBytes (h : Header) : List Nat :=
  u64le h.magic ++ u64le h.data_start ++ u64le h.data_end ++ u64le h.num_arrays

/-- The 16 bytes `copy_to(off, out, current)` emits for an `ArrayOffset`. -/
def offsetBytes (o : ArrayOffset) : List Nat :=
  u64le o._begin ++ u64le o._end

/-- Writing `bs` into the fixed-size allocation `buf` at position `pos`,
as writes through a `byte*` output iterator do; any part of the write that
falls outside the allocation is dropped (out-of-bounds in C++). -/
def writeBytes (buf : List Nat) (pos : Nat) (bs : List Nat) : List Nat :=
  buf.take pos ++ bs.take (buf.length - pos) ++ buf.drop (pos + bs.length)

namespace BfastRawData

/-- Method `BfastRawData::output_padding` (`src/include/bfast.h:170-177`): writes
zero bytes at `out` until `current` is aligned; returns the new buffer, the
advanced iterator position and the advanced `current`. -/
def output_padding (buf : List Nat) (out current : Nat) : List Nat × Nat × Nat :=
  let k := aligned_value current - current
  (writeBytes buf out (List.replicate k 0), out + k, current + k)

/-- The offset-table loop of `BfastRawData::copy_to`
(`src/include/bfast.h:206-207`): `out = copy_to(off, out, current)` for each
offset, 16 bytes apiece, advancing both `out` and `current`. -/
def writeOffsets (buf : List Nat) (out current : Nat) :
    List ArrayOffset → List Nat × Nat × Nat
  | [] => (buf, out, current)
  | o :: os => writeOffsets (writeBytes buf out (offsetBytes o)) (out + 16) (current + 16) os

/-- The buffer-copy loop of `BfastRawData::copy_to`
(`src/include/bfast.h:213-221`). Each iteration copies the range at `out`
(`out = copy(range.begin(), range.end(), out)`), then calls
`output_padding(out, current)` WITHOUT assigning its result to `out`
(line 220): the zero bytes are written through the by-value copy of the
iterator and `current` (passed by reference) advances to the alignment
boundary, but the `out` of the loop is left at the unpadded end of the range. -/
def copyRanges (buf : List Nat) (out current : Nat) : List (List Nat) → List Nat
  | [] => buf
  | r :: rs =>
      let buf1 := writeBytes buf out r
      let p := output_padding buf1 (out + r.length) (current + r.length)
      copyRanges p.1 (out + r.length) p.2.2 rs

/-- The header value filled out by `BfastRawData::copy_to`
(`src/include/bfast.h:190-194`). -/
def rawHeader (ranges : List (List Nat)) : Header :=
  let offsets := compute_offsets ranges
  { magic := MAGIC
    data_start := match offsets.head? with | none => 0 | some o => o._begin
    data_end := match offsets.getLast? with | none => 0 | some o => o._end
    num_arrays := ranges.length }

/-- Method `BfastRawData::copy_to(out)` (`src/include/bfast.h:180-222`): header,
header padding, early escape when there are no ranges, offset table, table
padding, then the buffer-copy loop. -/
def copy_to (ranges : List (List Nat)) (buf0 : List Nat) : List Nat :=
  let offsets := compute_offsets ranges
  let buf1 := writeBytes buf0 0 (headerBytes (rawHeader ranges))
  let p1 := output_padding buf1 header_size header_size
  if ranges.length = 0 then p1.1
  else
    let q := writeOffsets p1.1 p1.2.1 p1.2.2 offsets
    let p2 := output_padding q.1 q.2.1 q.2.2
    copyRanges p2.1 p2.2.1 p2.2.2 ranges

/-- Method `BfastRawData::pack` (`src/include/bfast.h:224-228`): allocate a
zero-initialized `vector<byte>` of `compute_needed_size()` bytes and
`copy_to` into it. -/
def pack (ranges : List (List Nat)) : List Nat :=
  copy_to ranges (List.replicate (compute_needed_size ranges) 0)

end BfastRawData

/-- Reading byte `i` of a stream; `unpack` indexes the stream without any
length check, which is undefined behaviour past the end in C++, modelled
here as reading 0. -/
def readByte (data : List Nat) (i : Nat) : Nat := data.getD i 0

/-- Reading a little-endian `ulong` field at byte offset `i`, as the
casts `*(Header*)&data[0]` and `(ArrayOffset*)&data[array_offsets_start]`
casts do on a little-endian target. -/
def readU64 (data : List Nat) (i : Nat) : Nat :=
  ((List.range 8).map fun j => readByte data (i + j) * 256 ^ j).sum

namespace BfastRawData

/-- Method `BfastRawData::unpack` (`src/include/bfast.h:230-249`): read the header
at offset 0; `throw` on `magic != MAGIC`, then on `data_end < data_start`;
otherwise read `num_arrays` 16-byte offsets starting at
`array_offsets_start` and record the byte range each one denotes. No other
validation is performed. -/
def unpack (data : List Nat) : Except BfastError (List ArrayOffset) :=
  if readU64 data 0 ≠ MAGIC then .error .invalidMagic
  else if readU64 data 16 < readU64 data 8 then .error .inconsistentBounds
  else .ok ((List.range (readU64 data 24)).map fun i =>
    ⟨readU64 data (array_offsets_start + 16 * i),
     readU64 data (array_offsets_start + 16 * i + 8)⟩)

end BfastRawData

/-- Struct `Buffer` with `string name; ByteRange data;`: a name and the bytes
it labels, both as byte lists. -/
structure Buffer where
  name : List Nat
  data : List Nat
deriving DecidableEq, Repr

namespace BfastData

/-- The name buffer built by `BfastData::to_raw_data`
(`src/include/bfast.h:91-100`): append `b.name` and a null byte over the buffers
in order. -/
def nameData (buffers : List Buffer) : List Nat :=
  (buffers.map fun b => b.name ++ [0]).flatten

/-- The range list `BfastData::to_raw_data` hands to `BfastRawData`: the
name buffer first, then the data of each buffer in order. -/
def ranges (buffers : List Buffer) : List (List Nat) :=
  nameData buffers :: buffers.map (·.data)

/-- Method `BfastData::pack` (`src/include/bfast.h:103-106`):
`to_raw_data(name_data).pack()`. -/
def pack (buffers : List Buffer) : List Nat :=
  BfastRawData.pack (ranges buffers)

end BfastData

/-- The bytes `stream[o._begin : o._end]` that a decoded `ByteRange` denotes. -/
def sliceRange (data : List Nat) (o : ArrayOffset) : List Nat :=
  (data.drop o._begin).take (o._end - o._begin)

/-- Splitting the name table on null bytes: each step takes one segment up
to (and consuming) its null terminator. The fuel equals the list length, an
upper bound on the number of segments. -/
def splitNamesAux : Nat → List Nat → List (List Nat)
  | 0, _ => []
  | _, [] => []
  | fuel + 1, l =>
      l.takeWhile (fun b => b != 0)
        :: splitNamesAux fuel (l.drop ((l.takeWhile (fun b => b != 0)).length + 1))

/-- Splitting a name table into its null-separated segments. -/
def splitNames (l : List Nat) : List (List Nat) := splitNamesAux l.length l

namespace BfastData

/-- Modelled from the spec: the reconstruction of names in `BfastData::unpack`
(`src/include/bfast.h:113-119` is an incomplete fragment that computes
nothing and returns nothing). Per spec §4.4/§4.6: unpack the raw container;
an empty container decodes to an empty list; otherwise logical buffer 0 is
the name table, split on null bytes, and the decode fails with a
name-table mismatch unless the segment count equals `num_arrays - 1`; each
remaining offset is paired with its name and its byte slice. -/
def unpack (data : List Nat) : Except BfastError (List Buffer) :=
  match BfastRawData.unpack data with
  | .error e => .error e
  | .ok [] => .ok []
  | .ok (o0 :: rest) =>
      let names := splitNames (sliceRange data o0)
      if names.length ≠ rest.length then .error .nameTableMismatch
      else .ok (List.zipWith (fun n o => ⟨n, sliceRange data o⟩) names rest)

end BfastData

/-- Offset-table builder written from the words of spec section 4.2: for
each buffer length `L` in order, emit `Offset, begin: cursor, end: cursor
+ L` and then advance `cursor = aligned_value(cursor + L)`. Stated over a
list of lengths, to be compared with `compute_offsets` from the source. -/
def specOffsets : Nat → List Nat → List ArrayOffset
  | _, [] => []
  | cursor, L :: Ls => ⟨cursor, cursor + L⟩ :: specOffsets (aligned_value (cursor + L)) Ls

/-- Helper: the rounded value is always a multiple of the alignment unit. -/
theorem aligned_value_mod (n : Nat) : aligned_value n % 64 = 0 := by
  simp only [aligned_value, is_aligned, alignment, beq_iff_eq]
  split
  · assumption
  · next h => omega

/-- Helper: `writeBytes` never changes the size of the allocation. -/
theorem writeBytes_length (buf : List Nat) (pos : Nat) (bs : List Nat) :
    (writeBytes buf pos bs).length = buf.length := by
  simp only [writeBytes, List.length_append, List.length_take, List.length_drop]
  omega

namespace BfastRawData

/-- Helper: `output_padding` never changes the size of the allocation. -/
theorem output_padding_length (buf : List Nat) (out current : Nat) :
    (output_padding buf out current).1.length = buf.length := by
  simp [output_padding, writeBytes_length]

/-- Helper: the offset-table loop never changes the size of the allocation. -/
theorem writeOffsets_length (os : List ArrayOffset) : ∀ buf out current,
    (writeOffsets buf out current os).1.length = buf.length := by
  induction os with
  | nil => intro buf out current; rfl
  | cons o os ih =>
      intro buf out current
      simp only [writeOffsets]
      rw [ih, writeBytes_length]

/-- Helper: the buffer-copy loop never changes the size of the allocation. -/
theorem copyRanges_length (rs : List (List Nat)) : ∀ buf out current,
    (copyRanges buf out current rs).length = buf.length := by
  induction rs with
  | nil => intro buf out current; rfl
  | cons r rs ih =>
      intro buf out current
      simp only [copyRanges]
      rw [ih, output_padding_length, writeBytes_length]

/-- Helper: `copy_to` never changes the size of the allocation. -/
theorem copy_to_length (ranges : List (List Nat)) (buf0 : List Nat) :
    (copy_to ranges buf0).length = buf0.length := by
  unfold copy_to
  split
  · rw [output_padding_length, writeBytes_length]
  · rw [copyRanges_length, output_padding_length, writeOffsets_length,
      output_padding_length, writeBytes_length]

/-- Helper: the packed stream has exactly the allocated `compute_needed_size`
bytes. -/
theorem pack_length (ranges : List (List Nat)) :
    (pack ranges).length = compute_needed_size ranges := by
  unfold pack
  rw [copy_to_length, List.length_replicate]

/-- Helper: the source offset loop computes exactly the spec-worded builder
over the range lengths. -/
theorem offsetsLoop_eq_spec (rs : List (List Nat)) : ∀ n,
    offsetsLoop n rs = specOffsets n (rs.map List.length) := by
  induction rs with
  | nil => intro n; rfl
  | cons r rs ih =>
      intro n
      simp only [offsetsLoop, List.map, specOffsets, ih]

/-- Helper: if the cursor starts aligned, every emitted begin is aligned. -/
theorem offsetsLoop_begin_aligned (rs : List (List Nat)) : ∀ n, n % 64 = 0 →
    ∀ o ∈ offsetsLoop n rs, o._begin % 64 = 0 := by
  induction rs with
  | nil => intro n _ o ho; simp [offsetsLoop] at ho
  | cons r rs ih =>
      intro n hn o ho
      simp only [offsetsLoop, List.mem_cons] at ho
      rcases ho with h | h
      · rw [h]
        exact hn
      · exact ih _ (aligned_value_mod _) o h

/-- Helper: a nonempty range list yields a nonempty offset table. -/
theorem compute_offsets_ne_nil (ranges : List (List Nat)) (h : ranges ≠ []) :
    compute_offsets ranges ≠ [] := by
  cases ranges with
  | nil => exact absurd rfl h
  | cons r rs => simp [compute_offsets, offsetsLoop]

end BfastRawData

/-- C2 (confirmed): the offset table builder starts its cursor at
`compute_data_start(count) = aligned_value(aligned_value(header_size) +
count * 16)`, emits `begin = cursor, end = cursor + L` for each length `L`
and advances the cursor to `aligned_value(cursor + L)` (precisely the
spec-worded `specOffsets`); `compute_needed_size()` is
`compute_data_start(count)` when `count == 0` and otherwise the end of the
last emitted offset (the offset table of a nonempty input being nonempty). -/
theorem compute_offsets_follow_spec (ranges : List (List Nat)) :
    BfastRawData.compute_offsets ranges
      = specOffsets (BfastRawData.compute_data_start ranges.length) (ranges.map List.length)
    ∧ (ranges = [] →
        BfastRawData.compute_needed_size ranges = BfastRawData.compute_data_start 0)
    ∧ (∀ o, (BfastRawData.compute_offsets ranges).getLast? = some o →
        BfastRawData.compute_needed_size ranges = o._end)
    ∧ (ranges ≠ [] → BfastRawData.compute_offsets ranges ≠ []) := by
  refine ⟨BfastRawData.offsetsLoop_eq_spec ranges _, ?_, ?_, BfastRawData.compute_offsets_ne_nil ranges⟩
  · rintro rfl
    rfl
  · intro o ho
    unfold BfastRawData.compute_needed_size
    rw [ho]

/-- Witness for C2 at the concrete input `[[1], [2, 3]]`. -/
theorem compute_offsets_follow_spec_w :
    BfastRawData.compute_offsets [[1], [2, 3]]
      = specOffsets (BfastRawData.compute_data_start 2) [1, 2]
    ∧ BfastRawData.compute_needed_size [[1], [2, 3]] = 194 := by
  have h := compute_offsets_follow_spec [[1], [2, 3]]
  exact ⟨h.1, by rw [h.2.2.1 ⟨192, 194⟩ (by decide)]⟩

/-- C7 (confirmed): for every input, the `data_start` value the packer
writes into the header and the begin field of every offset-table entry it
emits are multiples of 64. -/
theorem produced_stream_aligned (ranges : List (List Nat)) :
    (BfastRawData.rawHeader ranges).data_start % 64 = 0
    ∧ ∀ o ∈ BfastRawData.compute_offsets ranges, o._begin % 64 = 0 := by
  constructor
  · cases ranges with
    | nil => rfl
    | cons r rs =>
        show (match (BfastRawData.compute_offsets (r :: rs)).head? with
          | none => 0 | some o => o._begin) % 64 = 0
        simp only [BfastRawData.compute_offsets, BfastRawData.offsetsLoop, List.head?]
        exact aligned_value_mod _
  · exact BfastRawData.offsetsLoop_begin_aligned ranges _ (aligned_value_mod _)

/-- Witness for C7 at the concrete input `[[1], [2, 3]]` and its first
emitted offset. -/
theorem produced_stream_aligned_w :
    (BfastRawData.rawHeader [[1], [2, 3]]).data_start % 64 = 0
    ∧ (ArrayOffset.mk 128 129)._begin % 64 = 0 :=
  ⟨(produced_stream_aligned [[1], [2, 3]]).1,
   (produced_stream_aligned [[1], [2, 3]]).2 ⟨128, 129⟩ (by decide)⟩

/-- C6 (confirmed): `unpack` fails with the invalid-magic error whenever
the magic field read from the stream differs from `MAGIC` — in particular
when the 64-bit swapped-endianness magic `0xA5BF000000000000` is observed,
which is rejected, never byte-swapped — and, when the magic matches, fails
with the inconsistent-bounds error whenever `data_end < data_start`. -/
theorem unpack_header_validation (data : List Nat) :
    (readU64 data 0 ≠ MAGIC →
      BfastRawData.unpack data = .error .invalidMagic)
    ∧ (readU64 data 0 = 0xA5BF000000000000 →
      BfastRawData.unpack data = .error .invalidMagic)
    ∧ (readU64 data 0 = MAGIC → readU64 data 16 < readU64 data 8 →
      BfastRawData.unpack data = .error .inconsistentBounds) := by
  refine ⟨?_, ?_, ?_⟩
  · intro h
    simp [BfastRawData.unpack, h]
  · intro h
    have hne : readU64 data 0 ≠ MAGIC := by
      rw [h]
      decide
    simp [BfastRawData.unpack, hne]
  · intro h hlt
    simp [BfastRawData.unpack, h, hlt, MAGIC]

/-- Witness for C6: a 32-byte stream carrying the swapped-endianness magic
is rejected as invalid magic, and a stream with good magic but
`data_end = 50 < 100 = data_start` is rejected as inconsistent bounds. -/
theorem unpack_header_validation_w :
    BfastRawData.unpack (u64le 0xA5BF000000000000 ++ List.replicate 24 0)
      = .error .invalidMagic
    ∧ BfastRawData.unpack (u64le MAGIC ++ u64le 100 ++ u64le 50 ++ u64le 0)
      = .error .inconsistentBounds :=
  ⟨(unpack_header_validation _).2.1 (by decide),
   (unpack_header_validation _).2.2 (by decide) (by decide)⟩

/-- C10 (confirmed): for every nonempty range list the packed stream has
exactly as many bytes as the end of the last offset — no padding follows
the final buffer. -/
theorem pack_length_last_end (ranges : List (List Nat)) (h : ranges ≠ []) :
    ∃ o, (BfastRawData.compute_offsets ranges).getLast? = some o
      ∧ (BfastRawData.pack ranges).length = o._end := by
  obtain ⟨o, ho⟩ := Option.isSome_iff_exists.1
    (List.getLast?_isSome.2 (BfastRawData.compute_offsets_ne_nil ranges h))
  refine ⟨o, ho, ?_⟩
  rw [BfastRawData.pack_length]
  unfold BfastRawData.compute_needed_size
  rw [ho]

/-- Witness for C10 at the concrete input `[[1], [2, 3]]`: the stream ends
at byte 194, the end of the last offset, which is not a multiple of 64. -/
theorem pack_length_last_end_w :
    (∃ o, (BfastRawData.compute_offsets [[1], [2, 3]]).getLast? = some o
      ∧ (BfastRawData.pack [[1], [2, 3]]).length = o._end)
    ∧ 194 % 64 ≠ 0 :=
  ⟨pack_length_last_end [[1], [2, 3]] (by decide), by decide⟩

/-- C8 (confirmed): packing an empty range list yields exactly
`compute_data_start(0) = 64` bytes — the 32-byte header with
`magic = MAGIC`, `data_start = data_end = num_arrays = 0`, followed by 32
zero padding bytes — and unpacking that stream returns the empty list. -/
theorem pack_empty_roundtrip :
    BfastRawData.pack [] = headerBytes ⟨MAGIC, 0, 0, 0⟩ ++ List.replicate 32 0
    ∧ (BfastRawData.pack []).length = BfastRawData.compute_data_start 0
    ∧ BfastRawData.compute_data_start 0 = 64
    ∧ readU64 (BfastRawData.pack []) 0 = MAGIC
    ∧ readU64 (BfastRawData.pack []) 8 = 0
    ∧ readU64 (BfastRawData.pack []) 16 = 0
    ∧ readU64 (BfastRawData.pack []) 24 = 0
    ∧ BfastRawData.unpack (BfastRawData.pack []) = .ok [] := by decide

/-- C9 (code bug): the constant initializer `0xA5BF << 48` shifts a 32-bit
`int` literal by 48 bits, so the stored `SWAPPED_MAGIC` is 0 and not the
intended 64-bit value `0xA5BF000000000000`. -/
theorem swapped_magic_value :
    SWAPPED_MAGIC = 0 ∧ SWAPPED_MAGIC ≠ 0xA5BF000000000000 := by decide

/-- C1 (code bug): the round trip fails on the one-buffer input with name
`"a"` and data `[1, 2, 3]`. The buffer-copy loop of `copy_to` discards the
iterator returned by `output_padding`, so the data buffer is written at the
unpadded end of the name table (byte 130) instead of at its offset (byte
192); `unpack` then reads the padding zeros at bytes 192 to 195 and
returns data `[0, 0, 0]` instead of `[1, 2, 3]`. -/
theorem roundtrip_failure :
    BfastData.unpack (BfastData.pack [⟨[97], [1, 2, 3]⟩])
      = .ok [⟨[97], [0, 0, 0]⟩]
    ∧ (⟨[97], [0, 0, 0]⟩ : Buffer) ≠ ⟨[97], [1, 2, 3]⟩ := by decide

/-- C5 (code bug): on the input with name `"a"` and data `[9, 9]` the
offsets are `(128, 130)` and `(192, 194)`, yet byte 131 of the packed
stream — strictly between `offsets[0].end = 130` and
`offsets[1].begin = 192` — holds the data byte 9, not zero: the buffer-copy
loop writes the second buffer into the padding gap because it discards the
iterator returned by `output_padding`. -/
theorem padding_not_zero :
    BfastRawData.compute_offsets (BfastData.ranges [⟨[97], [9, 9]⟩])
      = [⟨128, 130⟩, ⟨192, 194⟩]
    ∧ readByte (BfastData.pack [⟨[97], [9, 9]⟩]) 131 = 9
    ∧ 130 < 131 ∧ 131 < 192 := by decide

/-- Counterexample for C3: an 80-byte stream with valid header whose single
offset entry ends at byte 1000, far beyond the stream, is accepted by
`unpack` and returned as a range — no truncated-stream failure occurs. -/
def truncStream : List Nat :=
  u64le MAGIC ++ u64le 64 ++ u64le 1000 ++ u64le 1
    ++ List.replicate 32 0 ++ u64le 64 ++ u64le 1000

/-- Counterexample for C3 at `truncStream`: the offset entry violates
`end <= len(stream)` (1000 > 80), yet `unpack` succeeds instead of failing
with a truncated-stream error. -/
theorem unpack_no_bounds_check_cex :
    BfastRawData.unpack truncStream = .ok [⟨64, 1000⟩]
    ∧ truncStream.length = 80
    ∧ ¬(1000 ≤ truncStream.length) := by decide

/-- C3 (corrected): `unpack` performs no validation of the offset entries
at all — whenever the header checks pass it returns the `num_arrays`
entries read from the offset table verbatim, whatever bounds they declare;
no truncated-stream error exists in the code. -/
theorem unpack_no_bounds_check (data : List Nat)
    (hm : readU64 data 0 = MAGIC) (hb : readU64 data 8 ≤ readU64 data 16) :
    BfastRawData.unpack data
      = .ok ((List.range (readU64 data 24)).map fun i =>
          ⟨readU64 data (array_offsets_start + 16 * i),
           readU64 data (array_offsets_start + 16 * i + 8)⟩) := by
  simp [BfastRawData.unpack, hm, Nat.not_lt.2 hb, MAGIC]

/-- Witness for C3 at `truncStream`, whose out-of-bounds entry is returned
unchecked. -/
theorem unpack_no_bounds_check_w :
    BfastRawData.unpack truncStream
      = .ok ((List.range (readU64 truncStream 24)).map fun i =>
          ⟨readU64 truncStream (array_offsets_start + 16 * i),
           readU64 truncStream (array_offsets_start + 16 * i + 8)⟩) :=
  unpack_no_bounds_check truncStream (by decide) (by decide)

/-- Counterexample for C4: packing the single buffer whose name is
`"a\x00b"` (an embedded null byte) does not fail — it returns a normal
193-byte stream; the illegal name is written into the name table verbatim
as `[97, 0, 98, 0]`, and the stream then no longer decodes (the name table
splits into two segments for one buffer, a name-table mismatch). -/
theorem pack_embedded_null_cex :
    (BfastData.pack [⟨[97, 0, 98], [9]⟩]).length = 193
    ∧ sliceRange (BfastData.pack [⟨[97, 0, 98], [9]⟩]) ⟨128, 132⟩ = [97, 0, 98, 0]
    ∧ BfastData.unpack (BfastData.pack [⟨[97, 0, 98], [9]⟩])
        = .error .nameTableMismatch := by decide

/-- C4 (corrected): `pack` performs no name-legality validation and cannot
fail — for every input list, legal names or not, it allocates and returns
the packed stream of the computed size. -/
theorem pack_no_name_check (buffers : List Buffer) :
    (BfastData.pack buffers).length
      = BfastRawData.compute_needed_size (BfastData.ranges buffers) :=
  BfastRawData.pack_length _

/-- Witness for C4 at the input whose name embeds a null byte: packing
still returns the full-size stream. -/
theorem pack_no_name_check_w :
    (BfastData.pack [⟨[97, 0, 98], [9]⟩]).length
      = BfastRawData.compute_needed_size (BfastData.ranges [⟨[97, 0, 98], [9]⟩]) :=
  pack_no_name_check [⟨[97, 0, 98], [9]⟩]

end Bfast
